import Mathlib

/-
Verification of the listener registry and dispatch engine of `ib/opt/receiver.py`.

The embedding models:
  * Python dicts as association lists (`assocFind` / `dictSet`), with
    first-binding lookup semantics (reachable Python dicts have unique keys);
  * Python values reaching the error adapter as the inductive `Value`;
  * message classes (`mtype`) as `MType` records carrying their `__name__`;
  * listener callables as opaque identifiers (`Nat`) whose only modelled
    behaviour is whether invocation on a given message raises; this is
    supplied by an environment `beh : Nat → MessageValue → Bool`
    (`beh x m = false` means "listener x raises when called with m");
  * Python exception flow with `Except PyErr`: every raise site of the
    source is an `Except.error`, and every `try/except` of the source is a
    `match` on the corresponding `Except` value.

`Receiver.dispatch` iterates over the *live* listener list while the
in-loop `unregister` call mutates that same list object (CPython aliasing),
so the loop is embedded index-faithfully (`fanout`): the iterator takes the
element at the current index of the current list, exactly as CPython's
list iterator does.
-/

namespace IbPy

/-- Python values reaching the receiver: ints, strings, tuples, and opaque
objects identified by a tag. -/
inductive Value : Type where
  | int (i : Int)
  | str (s : String)
  | tuple (elems : List Value)
  | obj (tag : Nat)

/-- A message class from the type registry (`ib.opt.message`): carries its
`__name__`. -/
structure MType where
  name : String
  deriving DecidableEq

/-- Objects that `Receiver.key` is applied to: message classes (which expose
`__name__`) and plain name strings (which do not). -/
inductive PyObj : Type where
  | ofType (t : MType)
  | ofStr (s : String)

/-- Modelled Python exceptions: `KeyError` from dict lookups,
`AttributeError` from attribute access, and an arbitrary exception raised by
a listener callable. -/
inductive PyErr : Type where
  | keyError
  | attributeError
  | exception
  deriving DecidableEq

/-- Modelled from the spec: a MessageValue (§3) is an immutable record of the
supplied field mapping tagged with its type identity.  The concrete
constructors live in `ib/opt/message.py`, which is not part of the sources
under verification; per §3 and §4.1 the constructor is modelled as total,
holding exactly the supplied fields. -/
structure MessageValue where
  typeName : String
  fields : List (String × Value)

/-- Python dict lookup on an association list: first binding wins. -/
def assocFind {α : Type} : List (String × α) → String → Option α
  | [], _ => none
  | p :: t, k => if p.1 = k then some p.2 else assocFind t k

/-- Python dict assignment `d[k] = v`: replaces the first binding of `k`,
or appends a new binding when `k` is absent. -/
def dictSet {α : Type} : List (String × α) → String → α → List (String × α)
  | [], k, v => [(k, v)]
  | p :: t, k, v => if p.1 = k then (p.1, v) :: t else p :: dictSet t k v

/-- Python `d[k]` as an expression: raises `KeyError` when the key is absent. -/
def dictGet {α : Type} (d : List (String × α)) (k : String) : Except PyErr α :=
  match assocFind d k with
  | some v => Except.ok v
  | none => Except.error PyErr.keyError

/-- Python `dict(pairs)`: later pairs overwrite earlier ones. -/
def pyDict (pairs : List (String × Value)) : List (String × Value) :=
  pairs.foldl (fun d p => dictSet d p.1 p.2) []

/-- The receiver state: `types` is the name → message-class registry
(`self.types`), `listeners` the dispatch table keyed by `Receiver.key`
(`self.listeners`). -/
structure Receiver where
  types : List (String × MType)
  listeners : List (String × List Nat)

/-- Python `str(obj)` for the objects `key` is applied to. -/
def pyStr : PyObj → String
  | PyObj.ofStr s => s
  | PyObj.ofType t => "<class " ++ t.name ++ ">"

/-- Attribute access `obj.__name__`: succeeds on classes, raises
`AttributeError` on strings. -/
def getDunderName : PyObj → Except PyErr String
  | PyObj.ofType t => Except.ok t.name
  | PyObj.ofStr _ => Except.error PyErr.attributeError

/-- Embeds `Receiver.key` (receiver.py lines 146-156): `try: return
obj.__name__ except AttributeError: return str(obj)`. -/
def Receiver.key (obj : PyObj) : String :=
  match getDunderName obj with
  | Except.ok n => n
  | Except.error _ => pyStr obj

/-- Modelled from the spec: applying a message class to a field mapping,
`mtype(**mapping)` (receiver.py line 83); the constructor itself is in
`ib/opt/message.py`, outside the verified sources, and per §3 produces the
record of the supplied fields tagged with the type identity. -/
def mkMessage (t : MType) (mapping : List (String × Value)) : MessageValue :=
  { typeName := t.name, fields := mapping }

/-- Embeds the call `listener(message)` (receiver.py line 86): the opaque
listener either returns normally or raises, as prescribed by the behaviour
environment `beh`. -/
def invokeListener (beh : Nat → MessageValue → Bool) (x : Nat) (m : MessageValue) :
    Except PyErr Unit :=
  if beh x m then Except.ok () else Except.error PyErr.exception

/-- Embeds `if listener in listeners: listeners.remove(listener)`
(receiver.py lines 135-136): removes the first occurrence if present. -/
def removeListener (lst : List Nat) (x : Nat) : List Nat :=
  if x ∈ lst then lst.erase x else lst

/-- Embeds the fan-out loop of `dispatch` (receiver.py lines 84-98)
index-faithfully.  CPython's list iterator keeps an index into the *live*
list; the `except` branch calls `self.unregister(listener, mtype)`, which
(through dict aliasing) removes the current listener from the very list
being iterated.  Returns the final listener list and the listeners invoked,
in invocation order (a listener that raises still counts as invoked). -/
def fanout (beh : Nat → MessageValue → Bool) (msg : MessageValue)
    (lst : List Nat) (i : Nat) : List Nat × List Nat :=
  if h : i < lst.length then
    let x := lst[i]
    match invokeListener beh x msg with
    | Except.ok _ =>
        let rest := fanout beh msg lst (i + 1)
        (rest.1, x :: rest.2)
    | Except.error _ =>
        let rest := fanout beh msg (removeListener lst x) (i + 1)
        (rest.1, x :: rest.2)
  else (lst, [])
termination_by lst.length - i
decreasing_by
  · omega
  · have hx : lst[i] ∈ lst := List.getElem_mem h
    have : (removeListener lst lst[i]).length = lst.length - 1 := by
      rw [removeListener, if_pos hx, List.length_erase_of_mem hx]
    omega

/-- Embeds the `try` block body of `dispatch` (receiver.py lines 78-79):
`mtype = self.types[name]; listeners = self.listeners[self.key(mtype)]`. -/
def Receiver.lookupBoth (r : Receiver) (name : String) : Except PyErr (MType × List Nat) :=
  match dictGet r.types name with
  | Except.error e => Except.error e
  | Except.ok mtype =>
      match dictGet r.listeners (Receiver.key (PyObj.ofType mtype)) with
      | Except.error e => Except.error e
      | Except.ok lst => Except.ok (mtype, lst)

/-- Embeds `Receiver.dispatch` (receiver.py lines 70-98).  The surrounding
`try/except (KeyError,): pass` is the outer `match`; any non-`KeyError`
exception of the lookup block would propagate.  In the `else` branch the
message is constructed and fanned out; the final listener list is written
back through the table (in CPython this happens by in-place mutation of the
aliased list).  The result carries the mutated receiver and the invocation
trace: each invoked listener paired with the single constructed message. -/
def Receiver.dispatch (beh : Nat → MessageValue → Bool) (r : Receiver) (name : String)
    (mapping : List (String × Value)) :
    Except PyErr (Receiver × List (Nat × MessageValue)) :=
  match Receiver.lookupBoth r name with
  | Except.error PyErr.keyError => Except.ok (r, [])
  | Except.error e => Except.error e
  | Except.ok (mtype, lst) =>
      let message := mkMessage mtype mapping
      let res := fanout beh message lst 0
      Except.ok
        ({ r with listeners :=
            dictSet r.listeners (Receiver.key (PyObj.ofType mtype)) res.1 },
         res.2.map fun x => (x, message))

/-- Embeds one iteration of `Receiver.register` (receiver.py lines 107-111):
`listeners = self.listeners.setdefault(key, []); if listener not in
listeners: listeners.append(listener)`. -/
def Receiver.registerOne (r : Receiver) (listener : Nat) (t : PyObj) : Receiver :=
  let k := Receiver.key t
  let cur := (assocFind r.listeners k).getD []
  { r with listeners :=
      dictSet r.listeners k (if listener ∈ cur then cur else cur ++ [listener]) }

/-- Embeds `Receiver.register` (receiver.py lines 100-111): the `for mtype in
types` loop. -/
def Receiver.register (r : Receiver) (listener : Nat) (types : List PyObj) : Receiver :=
  types.foldl (fun acc t => Receiver.registerOne acc listener t) r

/-- Embeds one iteration of `Receiver.unregister` (receiver.py lines
129-136): missing keys are swallowed by the inner `except (KeyError,)`. -/
def Receiver.unregisterOne (r : Receiver) (listener : Nat) (t : PyObj) : Receiver :=
  match assocFind r.listeners (Receiver.key t) with
  | none => r
  | some lst =>
      { r with listeners :=
          dictSet r.listeners (Receiver.key t) (removeListener lst listener) }

/-- Embeds `Receiver.unregister` (receiver.py lines 122-136). -/
def Receiver.unregister (r : Receiver) (listener : Nat) (types : List PyObj) : Receiver :=
  types.foldl (fun acc t => Receiver.unregisterOne acc listener t) r

/-- Modelled from the spec: overload resolution of the error adapter
(receiver.py lines 158-190).  The `@overloaded` machinery lives in
`ib/lib/overloading.py`, outside the verified sources; per §4.2 resolution
tries the exact `(int, int, str)` shape first, then the single-string shape,
then the generic single-value shape, and per §7 any other argument
combination falls back to the single-value shape with the whole argument
tuple as the opaque value.  The three bodies (`error`, `error_0`, `error_1`)
are taken from the source. -/
def errorNormalize : List Value → List (String × Value)
  | [Value.int i, Value.int c, Value.str m] =>
      [("id", Value.int i), ("errorCode", Value.int c), ("errorMsg", Value.str m)]
  | [Value.str s] => [("errorMsg", Value.str s)]
  | [v] => [("errorMsg", v)]
  | vs => [("errorMsg", Value.tuple vs)]

/-- Embeds the overloaded `Receiver.error` family (receiver.py lines
158-190): normalize the arguments, then forward to the generic dispatch path
for the `error` type. -/
def Receiver.error (beh : Nat → MessageValue → Bool) (r : Receiver) (args : List Value) :
    Except PyErr (Receiver × List (Nat × MessageValue)) :=
  Receiver.dispatch beh r "error" (errorNormalize args)

/-- Embeds `messageMethod` (receiver.py lines 22-33): the generated per-type
entry point builds `dict(zip(argnames, args))` and forwards to
`self.dispatch(name, params)`. -/
def messageMethod (name : String) (argnames : List String)
    (beh : Nat → MessageValue → Bool) (self : Receiver) (args : List Value) :
    Except PyErr (Receiver × List (Nat × MessageValue)) :=
  Receiver.dispatch beh self name (pyDict (argnames.zip args))

/-- Recognizer for the `(int, int, str)` error-call shape of §4.2. -/
def isShape3 : List Value → Bool
  | [Value.int _, Value.int _, Value.str _] => true
  | _ => false

/-! ### Association-list lemmas -/

theorem assocFind_dictSet_self {α : Type} (d : List (String × α)) (k : String) (v : α) :
    assocFind (dictSet d k v) k = some v := by
  induction d with
  | nil => simp [dictSet, assocFind]
  | cons p t ih =>
      by_cases h : p.1 = k
      · simp [dictSet, assocFind, h]
      · simp [dictSet, assocFind, h, ih]

theorem assocFind_dictSet_ne {α : Type} (d : List (String × α)) (k k2 : String) (v : α)
    (h : k2 ≠ k) : assocFind (dictSet d k v) k2 = assocFind d k2 := by
  induction d with
  | nil =>
      have h2 : ¬ k = k2 := fun hh => h hh.symm
      simp [dictSet, assocFind, h2]
  | cons p t ih =>
      by_cases hp : p.1 = k
      · have h2 : ¬ k = k2 := fun hh => h hh.symm
        simp [dictSet, assocFind, hp, h2]
      · by_cases hq : p.1 = k2 <;> simp [dictSet, assocFind, hp, hq, ih, h]

theorem dictSet_self {α : Type} (d : List (String × α)) (k : String) (v : α)
    (h : assocFind d k = some v) : dictSet d k v = d := by
  induction d with
  | nil => simp [assocFind] at h
  | cons p t ih =>
      by_cases hp : p.1 = k
      · subst hp
        rw [assocFind, if_pos rfl] at h
        have hv : v = p.2 := by cases h; rfl
        subst hv
        simp [dictSet]
      · rw [assocFind, if_neg hp] at h
        simp [dictSet, hp, ih h]

theorem dictSet_of_none {α : Type} (d : List (String × α)) (k : String) (v : α)
    (h : assocFind d k = none) : dictSet d k v = d ++ [(k, v)] := by
  induction d with
  | nil => simp [dictSet]
  | cons p t ih =>
      by_cases hp : p.1 = k
      · rw [assocFind, if_pos hp] at h
        cases h
      · rw [assocFind, if_neg hp] at h
        simp [dictSet, hp, ih h]

/-! ### Fan-out lemmas -/

theorem fanout_final_sublist (beh : Nat → MessageValue → Bool) (msg : MessageValue)
    (lst : List Nat) (i : Nat) : (fanout beh msg lst i).1.Sublist lst := by
  induction lst, i using fanout.induct beh msg with
  | case1 lst i h x a heq ih =>
      have heq2 : invokeListener beh lst[i] msg = Except.ok a := heq
      rw [fanout, dif_pos h]
      simp only [heq2]
      exact ih
  | case2 lst i h x a heq ih =>
      have heq2 : invokeListener beh lst[i] msg = Except.error a := heq
      rw [fanout, dif_pos h]
      simp only [heq2]
      have hmem : lst[i] ∈ lst := List.getElem_mem h
      have h2 : (removeListener lst lst[i]).Sublist lst := by
        rw [removeListener, if_pos hmem]
        exact List.erase_sublist _ _
      exact List.Sublist.trans ih h2
  | case3 lst i h =>
      rw [fanout, dif_neg h]

theorem fanout_no_fault (beh : Nat → MessageValue → Bool) (msg : MessageValue)
    (lst : List Nat) (i : Nat) (h : ∀ x ∈ lst, beh x msg = true) :
    fanout beh msg lst i = (lst, lst.drop i) := by
  revert h
  induction lst, i using fanout.induct beh msg with
  | case1 lst i hi x a heq ih =>
      intro h
      have heq2 : invokeListener beh lst[i] msg = Except.ok a := heq
      rw [fanout, dif_pos hi]
      simp only [heq2, ih h]
      rw [List.drop_eq_getElem_cons hi]
  | case2 lst i hi x a heq ih =>
      intro h
      exfalso
      have hx : beh lst[i] msg = true := h _ (List.getElem_mem hi)
      have heq2 : invokeListener beh lst[i] msg = Except.error a := heq
      rw [invokeListener, if_pos hx] at heq2
      cases heq2
  | case3 lst i hi =>
      intro h
      rw [fanout, dif_neg hi]
      have hle : lst.length ≤ i := Nat.le_of_not_lt hi
      simp [List.drop_eq_nil_of_le hle]

theorem fanout_fault_removed (beh : Nat → MessageValue → Bool) (msg : MessageValue)
    (lst : List Nat) (i : Nat) (x : Nat) (hf : beh x msg = false)
    (hnd : lst.Nodup) (hx : x ∈ (fanout beh msg lst i).2) :
    x ∉ (fanout beh msg lst i).1 := by
  revert hnd hx
  induction lst, i using fanout.induct beh msg with
  | case1 lst i hi y a heq ih =>
      intro hnd hx
      have heq2 : invokeListener beh lst[i] msg = Except.ok a := heq
      rw [fanout, dif_pos hi] at hx ⊢
      simp only [heq2] at hx ⊢
      rcases List.mem_cons.mp hx with hx1 | hx2
      · exfalso
        have hfy : beh lst[i] msg = false := hx1 ▸ hf
        rw [invokeListener, hfy] at heq2
        simp at heq2
      · exact ih hnd hx2
  | case2 lst i hi y a heq ih =>
      intro hnd hx
      have heq2 : invokeListener beh lst[i] msg = Except.error a := heq
      rw [fanout, dif_pos hi] at hx ⊢
      simp only [heq2] at hx ⊢
      have hmem : lst[i] ∈ lst := List.getElem_mem hi
      rcases List.mem_cons.mp hx with hx1 | hx2
      · intro hfin
        have hsub := fanout_final_sublist beh msg (removeListener lst lst[i]) (i + 1)
        have hin : x ∈ removeListener lst lst[i] := hsub.mem hfin
        rw [removeListener, if_pos hmem] at hin
        exact ((List.Nodup.mem_erase_iff hnd).mp hin).1 hx1
      · have hnd2 : (removeListener lst lst[i]).Nodup := by
          rw [removeListener, if_pos hmem]
          exact hnd.erase _
        exact ih hnd2 hx2
  | case3 lst i hi =>
      intro hnd hx
      rw [fanout, dif_neg hi] at hx
      simp at hx

/-! ### Dispatch unfolding lemmas -/

theorem dispatch_no_type (beh : Nat → MessageValue → Bool) (r : Receiver) (name : String)
    (mapping : List (String × Value)) (h : assocFind r.types name = none) :
    Receiver.dispatch beh r name mapping = Except.ok (r, []) := by
  simp [Receiver.dispatch, Receiver.lookupBoth, dictGet, h]

theorem dispatch_no_listeners (beh : Nat → MessageValue → Bool) (r : Receiver) (name : String)
    (mapping : List (String × Value)) (mtype : MType)
    (ht : assocFind r.types name = some mtype)
    (hl : assocFind r.listeners (Receiver.key (PyObj.ofType mtype)) = none) :
    Receiver.dispatch beh r name mapping = Except.ok (r, []) := by
  simp [Receiver.dispatch, Receiver.lookupBoth, dictGet, ht, hl]

theorem dispatch_found (beh : Nat → MessageValue → Bool) (r : Receiver) (name : String)
    (mapping : List (String × Value)) (mtype : MType) (lst : List Nat)
    (ht : assocFind r.types name = some mtype)
    (hl : assocFind r.listeners (Receiver.key (PyObj.ofType mtype)) = some lst) :
    Receiver.dispatch beh r name mapping =
      Except.ok
        (Receiver.mk r.types
          (dictSet r.listeners (Receiver.key (PyObj.ofType mtype))
            (fanout beh (mkMessage mtype mapping) lst 0).1),
         (fanout beh (mkMessage mtype mapping) lst 0).2.map
           (fun x => (x, mkMessage mtype mapping))) := by
  simp [Receiver.dispatch, Receiver.lookupBoth, dictGet, ht, hl]

theorem dispatch_ok (beh : Nat → MessageValue → Bool) (r : Receiver) (name : String)
    (mapping : List (String × Value)) :
    ∃ out, Receiver.dispatch beh r name mapping = Except.ok out := by
  cases ht : assocFind r.types name with
  | none => exact ⟨(r, []), dispatch_no_type beh r name mapping ht⟩
  | some mtype =>
      cases hl : assocFind r.listeners (Receiver.key (PyObj.ofType mtype)) with
      | none => exact ⟨(r, []), dispatch_no_listeners beh r name mapping mtype ht hl⟩
      | some lst => exact ⟨_, dispatch_found beh r name mapping mtype lst ht hl⟩

/-! ### Zip and pyDict lemmas -/

theorem zip_map_fst {α β : Type} (xs : List α) (ys : List β) :
    (xs.zip ys).map Prod.fst = xs.take ys.length := by
  induction xs generalizing ys with
  | nil => simp
  | cons x xs ih =>
      cases ys with
      | nil => simp
      | cons y ys => simp [List.zip_cons_cons, ih]

theorem zip_map_snd {α β : Type} (xs : List α) (ys : List β) :
    (xs.zip ys).map Prod.snd = ys.take xs.length := by
  induction xs generalizing ys with
  | nil => simp
  | cons x xs ih =>
      cases ys with
      | nil => simp
      | cons y ys => simp [List.zip_cons_cons, ih]

theorem foldl_dictSet_append (pairs : List (String × Value)) :
    ∀ acc : List (String × Value), (pairs.map Prod.fst).Nodup →
      (∀ p ∈ pairs, assocFind acc p.1 = none) →
      pairs.foldl (fun d p => dictSet d p.1 p.2) acc = acc ++ pairs := by
  induction pairs with
  | nil => intro acc _ _; simp
  | cons p t ih =>
      intro acc hnd habs
      have hset : dictSet acc p.1 p.2 = acc ++ [(p.1, p.2)] :=
        dictSet_of_none acc p.1 p.2 (habs p (List.mem_cons_self p t))
      have hnd2 : (t.map Prod.fst).Nodup := (List.nodup_cons.mp hnd).2
      have habs2 : ∀ q ∈ t, assocFind (dictSet acc p.1 p.2) q.1 = none := by
        intro q hq
        have hne : q.1 ≠ p.1 := by
          intro hqe
          exact (List.nodup_cons.mp hnd).1 (hqe ▸ List.mem_map_of_mem Prod.fst hq)
        rw [assocFind_dictSet_ne acc p.1 q.1 p.2 hne]
        exact habs q (List.mem_cons_of_mem p hq)
      calc (p :: t).foldl (fun d q => dictSet d q.1 q.2) acc
          = t.foldl (fun d q => dictSet d q.1 q.2) (dictSet acc p.1 p.2) := by simp
        _ = dictSet acc p.1 p.2 ++ t := ih (dictSet acc p.1 p.2) hnd2 habs2
        _ = acc ++ p :: t := by rw [hset]; simp

theorem pyDict_eq_self (pairs : List (String × Value)) (h : (pairs.map Prod.fst).Nodup) :
    pyDict pairs = pairs := by
  have := foldl_dictSet_append pairs [] h (fun p _ => rfl)
  simpa [pyDict] using this

theorem assocFind_zip_none {α : Type} (names : List String) (vals : List α) (i : Nat)
    (h : i < names.length) (hnd : names.Nodup) (hge : vals.length ≤ i) :
    assocFind (names.zip vals) names[i] = none := by
  induction names generalizing vals i with
  | nil => simp at h
  | cons n ns ih =>
      cases vals with
      | nil => simp [assocFind]
      | cons v vs =>
          have hi0 : i ≠ 0 := by
            intro h0
            rw [h0] at hge
            simp at hge
          obtain ⟨j, rfl⟩ : ∃ j, i = j + 1 := ⟨i - 1, by omega⟩
          have hj : j < ns.length := by simpa using h
          have hne : ¬ n = (n :: ns)[j + 1] := by
            have : (n :: ns)[j + 1] ∈ ns := by
              simp only [List.getElem_cons_succ]
              exact List.getElem_mem hj
            intro heq
            exact (List.nodup_cons.mp hnd).1 (heq ▸ this)
          simp only [List.zip_cons_cons, assocFind, hne, if_false]
          have := ih vs j hj (List.nodup_cons.mp hnd).2 (by simpa using hge)
          simpa using this

/-! ### Concrete fixtures used by counterexamples and witnesses -/

/-- A behaviour environment where every listener returns normally. -/
def behTrue : Nat → MessageValue → Bool := fun _ _ => true

/-- A behaviour environment where listener 0 raises on every message and all
other listeners return normally. -/
def behFaulty0 : Nat → MessageValue → Bool := fun x _ => decide (x ≠ 0)

/-- A receiver with one registered listener (5) for the `error` type. -/
def rxErr : Receiver :=
  { types := [("error", { name := "Error" })], listeners := [("Error", [5])] }

/-- A receiver whose `accountSummary` type has listeners 0 and 1, in that
registration order. -/
def rxTwo : Receiver :=
  { types := [("accountSummary", { name := "AccountSummary" })],
    listeners := [("AccountSummary", [0, 1])] }

/-- A receiver used for witnesses: `tickSize` has listeners 3 and 7, and the
`error` type has listener 0 under key `Err` plus listener 0 under an
unrelated key. -/
def rxW : Receiver :=
  { types := [("tickSize", { name := "TickSize" }), ("err", { name := "Err" })],
    listeners := [("TickSize", [3, 7]), ("Err", [0]), ("Other", [0])] }

/-! ### Claim theorems -/

/-- Claim C2: for every name and field mapping, `dispatch` returns normally —
no modelled exception (KeyError from the type or table lookups, or an
exception raised by a listener) escapes to the caller; the lookup failures
are swallowed by the `except (KeyError,)` clause and listener exceptions by
the per-listener `except (Exception,)` clause. -/
theorem dispatch_always_returns_normally (beh : Nat → MessageValue → Bool) (r : Receiver)
    (name : String) (mapping : List (String × Value)) :
    ∃ out, Receiver.dispatch beh r name mapping = Except.ok out :=
  dispatch_ok beh r name mapping

/-- Claim C9: `key` is deterministic, and for a message type whose
`__name__` is the string `s`, `key` on the type object and `key` on the
string `s` agree (the former returns `__name__`, the latter falls through
the `AttributeError` handler to `str`). -/
theorem key_deterministic_and_stable (o : PyObj) (t : MType) (s : String)
    (h : t.name = s) :
    Receiver.key o = Receiver.key o ∧
    Receiver.key (PyObj.ofType t) = Receiver.key (PyObj.ofStr s) := by
  refine ⟨rfl, ?_⟩
  simp [Receiver.key, getDunderName, pyStr, h]

/-- Witness for C9 at a concrete type and name string. -/
theorem key_deterministic_and_stable_witness :
    Receiver.key (PyObj.ofStr "error") = Receiver.key (PyObj.ofStr "error") ∧
    Receiver.key (PyObj.ofType { name := "error" }) = Receiver.key (PyObj.ofStr "error") :=
  key_deterministic_and_stable (PyObj.ofStr "error") { name := "error" } "error" rfl

/-- Claim C7: dispatching a name absent from the type registry, or a known
type with no listener-table entry or an empty listener list, invokes no
listener, leaves the receiver unchanged, and returns normally. -/
theorem dispatch_unknown_or_no_listener_is_noop (beh : Nat → MessageValue → Bool)
    (r : Receiver) (name : String) (mapping : List (String × Value))
    (h : assocFind r.types name = none ∨
      ∃ mtype, assocFind r.types name = some mtype ∧
        (assocFind r.listeners (Receiver.key (PyObj.ofType mtype)) = none ∨
         assocFind r.listeners (Receiver.key (PyObj.ofType mtype)) = some [])) :
    Receiver.dispatch beh r name mapping = Except.ok (r, []) := by
  rcases h with h | ⟨mtype, ht, hl | hl⟩
  · exact dispatch_no_type beh r name mapping h
  · exact dispatch_no_listeners beh r name mapping mtype ht hl
  · rw [dispatch_found beh r name mapping mtype [] ht hl]
    have hnil : fanout beh (mkMessage mtype mapping) [] 0 = ([], []) := by
      rw [fanout]
      simp
    rw [hnil]
    rw [dictSet_self r.listeners (Receiver.key (PyObj.ofType mtype)) [] hl]
    rfl

/-- Witness for C7: dispatch of a name missing from the registry and
dispatch of a known type with an empty listener list are both no-ops. -/
theorem dispatch_unknown_or_no_listener_is_noop_witness :
    (assocFind rxErr.types "tickPrice" = none ∨
      ∃ mtype, assocFind rxErr.types "tickPrice" = some mtype ∧
        (assocFind rxErr.listeners (Receiver.key (PyObj.ofType mtype)) = none ∨
         assocFind rxErr.listeners (Receiver.key (PyObj.ofType mtype)) = some [])) ∧
    Receiver.dispatch behTrue rxErr "tickPrice" [] = Except.ok (rxErr, []) :=
  ⟨Or.inl rfl,
   dispatch_unknown_or_no_listener_is_noop behTrue rxErr "tickPrice" [] (Or.inl rfl)⟩

/-- Claim C6: the error adapter maps each recognized call shape to its
canonical field mapping and forwards it through the generic dispatch path
for the `error` type (no fan-out of its own); the fourth conjunct shows a
normalized error reaching a listener registered for the `error` type. -/
theorem error_adapter_canonical_shapes (beh : Nat → MessageValue → Bool) (r : Receiver) :
    Receiver.error beh r [Value.int 42] =
      Receiver.dispatch beh r "error" [("errorMsg", Value.int 42)] ∧
    Receiver.error beh r [Value.str "bad feed"] =
      Receiver.dispatch beh r "error" [("errorMsg", Value.str "bad feed")] ∧
    Receiver.error beh r [Value.int 7, Value.int 504, Value.str "timeout"] =
      Receiver.dispatch beh r "error"
        [("id", Value.int 7), ("errorCode", Value.int 504),
         ("errorMsg", Value.str "timeout")] ∧
    Receiver.error behTrue rxErr [Value.int 42] =
      Except.ok (rxErr,
        [(5, mkMessage { name := "Error" } [("errorMsg", Value.int 42)])]) := by
  refine ⟨rfl, rfl, rfl, ?_⟩
  have ht : assocFind rxErr.types "error" = some { name := "Error" } := rfl
  have hl : assocFind rxErr.listeners
      (Receiver.key (PyObj.ofType { name := "Error" })) = some [5] := rfl
  have he : Receiver.error behTrue rxErr [Value.int 42] =
      Receiver.dispatch behTrue rxErr "error" [("errorMsg", Value.int 42)] := rfl
  rw [he, dispatch_found behTrue rxErr "error" _ _ [5] ht hl,
    fanout_no_fault behTrue _ [5] 0 (fun x _ => rfl)]
  rw [dictSet_self rxErr.listeners _ [5] hl]
  rfl

/-- Claim C4: with every listener of the type returning normally, a dispatch
invokes each currently-registered listener exactly once, in list
(registration) order, with the single constructed MessageValue whose fields
are exactly the supplied mapping. -/
theorem dispatch_no_fault_invokes_each_listener_once
    (beh : Nat → MessageValue → Bool) (r : Receiver) (name : String)
    (mapping : List (String × Value)) (mtype : MType) (lst : List Nat)
    (ht : assocFind r.types name = some mtype)
    (hl : assocFind r.listeners (Receiver.key (PyObj.ofType mtype)) = some lst)
    (hnd : lst.Nodup)
    (hok : ∀ x ∈ lst, beh x (mkMessage mtype mapping) = true) :
    (mkMessage mtype mapping).fields = mapping ∧
    ∃ r2, Receiver.dispatch beh r name mapping =
        Except.ok (r2, lst.map (fun x => (x, mkMessage mtype mapping))) ∧
      ∀ x ∈ lst,
        ((lst.map (fun y => (y, mkMessage mtype mapping))).map Prod.fst).count x = 1 := by
  refine ⟨rfl,
    Receiver.mk r.types
      (dictSet r.listeners (Receiver.key (PyObj.ofType mtype)) lst), ?_, ?_⟩
  · rw [dispatch_found beh r name mapping mtype lst ht hl,
      fanout_no_fault beh (mkMessage mtype mapping) lst 0 hok]
    rw [List.drop_zero]
  · intro x hx
    have hmap : (lst.map (fun y => (y, mkMessage mtype mapping))).map Prod.fst = lst := by
      rw [List.map_map]
      exact List.map_id lst
    rw [hmap]
    exact List.count_eq_one_of_mem hnd hx

/-- Witness for C4: a receiver whose `tickSize` type has the two listeners 3
and 7, neither of which raises. -/
theorem dispatch_no_fault_invokes_each_listener_once_witness :
    (mkMessage { name := "TickSize" } [("size", Value.int 5)]).fields
        = [("size", Value.int 5)] ∧
    ∃ r2, Receiver.dispatch behTrue rxW "tickSize" [("size", Value.int 5)] =
        Except.ok (r2, [3, 7].map
          (fun x => (x, mkMessage { name := "TickSize" } [("size", Value.int 5)]))) ∧
      ∀ x ∈ [3, 7],
        (([3, 7].map
          (fun y => (y, mkMessage { name := "TickSize" } [("size", Value.int 5)]))).map
            Prod.fst).count x = 1 :=
  dispatch_no_fault_invokes_each_listener_once behTrue rxW "tickSize"
    [("size", Value.int 5)] { name := "TickSize" } [3, 7] rfl rfl
    (by decide) (fun x _ => rfl)

/-- Claim C5: when a listener was invoked and raised during dispatch of a
type, immediately after the dispatch it is absent from that type's listener
list, while the listener lists stored under every other key are unchanged. -/
theorem dispatch_fault_unregisters_this_type_only
    (beh : Nat → MessageValue → Bool) (r : Receiver) (name : String)
    (mapping : List (String × Value)) (mtype : MType) (lst : List Nat)
    (r2 : Receiver) (calls : List (Nat × MessageValue)) (x : Nat)
    (ht : assocFind r.types name = some mtype)
    (hl : assocFind r.listeners (Receiver.key (PyObj.ofType mtype)) = some lst)
    (hnd : lst.Nodup)
    (hdisp : Receiver.dispatch beh r name mapping = Except.ok (r2, calls))
    (hinv : (x, mkMessage mtype mapping) ∈ calls)
    (hraise : beh x (mkMessage mtype mapping) = false) :
    (∃ fin, assocFind r2.listeners (Receiver.key (PyObj.ofType mtype)) = some fin ∧
      x ∉ fin) ∧
    ∀ k, k ≠ Receiver.key (PyObj.ofType mtype) →
      assocFind r2.listeners k = assocFind r.listeners k := by
  rw [dispatch_found beh r name mapping mtype lst ht hl] at hdisp
  have hpair := Except.ok.inj hdisp
  have hr2 := congrArg Prod.fst hpair
  have hcalls := congrArg Prod.snd hpair
  simp only at hr2 hcalls
  subst hr2
  rw [← hcalls] at hinv
  obtain ⟨y, hy, hxy⟩ := List.mem_map.mp hinv
  have hyx : y = x := congrArg Prod.fst hxy
  subst hyx
  have hnotin := fanout_fault_removed beh (mkMessage mtype mapping) lst 0 y hraise hnd hy
  constructor
  · exact ⟨(fanout beh (mkMessage mtype mapping) lst 0).1,
      assocFind_dictSet_self r.listeners (Receiver.key (PyObj.ofType mtype)) _, hnotin⟩
  · intro k hk
    exact assocFind_dictSet_ne r.listeners (Receiver.key (PyObj.ofType mtype)) k _ hk

/-- Witness for C5: listener 0 of type `Err` raises; afterwards it is gone
from the `Err` list but still present under the unrelated key `Other`. -/
theorem dispatch_fault_unregisters_this_type_only_witness :
    Receiver.dispatch behFaulty0 rxW "err" [] =
      Except.ok (Receiver.mk rxW.types
        [("TickSize", [3, 7]), ("Err", []), ("Other", [0])],
        [(0, mkMessage { name := "Err" } [])]) ∧
    ((∃ fin, assocFind (Receiver.mk rxW.types
        [("TickSize", [3, 7]), ("Err", []), ("Other", [0])]).listeners
        (Receiver.key (PyObj.ofType { name := "Err" })) = some fin ∧ 0 ∉ fin) ∧
     ∀ k, k ≠ Receiver.key (PyObj.ofType { name := "Err" }) →
       assocFind (Receiver.mk rxW.types
         [("TickSize", [3, 7]), ("Err", []), ("Other", [0])]).listeners k =
       assocFind rxW.listeners k) := by
  have hfan : fanout behFaulty0 (mkMessage { name := "Err" } []) [0] 0 = ([], [0]) := by
    rw [fanout]
    simp only [invokeListener, behFaulty0, removeListener]
    norm_num
    rw [fanout]
    simp
  have hdisp : Receiver.dispatch behFaulty0 rxW "err" [] =
      Except.ok (Receiver.mk rxW.types
        [("TickSize", [3, 7]), ("Err", []), ("Other", [0])],
        [(0, mkMessage { name := "Err" } [])]) := by
    rw [dispatch_found behFaulty0 rxW "err" [] { name := "Err" } [0] rfl rfl, hfan]
    rfl
  refine ⟨hdisp, ?_⟩
  exact dispatch_fault_unregisters_this_type_only behFaulty0 rxW "err" []
    { name := "Err" } [0] _ _ 0 rfl rfl (by decide) hdisp
    (List.mem_singleton.mpr rfl) rfl

/-- Claim C8: registering a listener already present in a type's list leaves
the receiver unchanged (no duplicate, no error), so a subsequent fault-free
dispatch of that type still invokes that listener exactly once. -/
theorem register_idempotent (r : Receiver) (x : Nat) (mtype : MType) (cur : List Nat)
    (hfind : assocFind r.listeners (Receiver.key (PyObj.ofType mtype)) = some cur)
    (hmem : x ∈ cur) :
    Receiver.register r x [PyObj.ofType mtype] = r ∧
    ∀ beh name mapping, assocFind r.types name = some mtype → cur.Nodup →
      (∀ y ∈ cur, beh y (mkMessage mtype mapping) = true) →
      ∃ r2, Receiver.dispatch beh (Receiver.register r x [PyObj.ofType mtype]) name
          mapping = Except.ok (r2, cur.map (fun y => (y, mkMessage mtype mapping))) ∧
        ((cur.map (fun y => (y, mkMessage mtype mapping))).map Prod.fst).count x = 1 := by
  have hreg : Receiver.register r x [PyObj.ofType mtype] = r := by
    show Receiver.registerOne r x (PyObj.ofType mtype) = r
    rw [Receiver.registerOne]
    simp only [hfind, Option.getD_some, hmem, if_pos]
    rw [dictSet_self r.listeners (Receiver.key (PyObj.ofType mtype)) cur hfind]
  refine ⟨hreg, ?_⟩
  intro beh name mapping hty hnd hok
  rw [hreg]
  refine ⟨Receiver.mk r.types
    (dictSet r.listeners (Receiver.key (PyObj.ofType mtype)) cur), ?_, ?_⟩
  · rw [dispatch_found beh r name mapping mtype cur hty hfind,
      fanout_no_fault beh (mkMessage mtype mapping) cur 0 hok]
    rw [List.drop_zero]
  · have hmap : (cur.map (fun y => (y, mkMessage mtype mapping))).map Prod.fst = cur := by
      rw [List.map_map]
      exact List.map_id cur
    rw [hmap]
    exact List.count_eq_one_of_mem hnd hmem

/-- Witness for C8: re-registering listener 0, already registered for the
`AccountSummary` type of `rxTwo`, is a no-op, and a fault-free dispatch
invokes it once. -/
theorem register_idempotent_witness :
    Receiver.register rxTwo 0 [PyObj.ofType { name := "AccountSummary" }] = rxTwo ∧
    ∃ r2, Receiver.dispatch behTrue
        (Receiver.register rxTwo 0 [PyObj.ofType { name := "AccountSummary" }])
        "accountSummary" [] =
        Except.ok (r2, [0, 1].map
          (fun y => (y, mkMessage { name := "AccountSummary" } []))) ∧
      (([0, 1].map (fun y => (y, mkMessage { name := "AccountSummary" } []))).map
        Prod.fst).count 0 = 1 := by
  have h := register_idempotent rxTwo 0 { name := "AccountSummary" } [0, 1]
    rfl (by decide)
  exact ⟨h.1, h.2 behTrue "accountSummary" [] rfl (by decide) (fun y _ => rfl)⟩

/-- Helper for C3: every argument list matching none of the three recognized
shapes (in particular, not of length one) normalizes to the single-value
fallback carrying the whole tuple. -/
theorem errorNormalize_fallback (args : List Value) (h3 : isShape3 args = false)
    (h1 : args.length ≠ 1) :
    errorNormalize args = [("errorMsg", Value.tuple args)] := by
  match args with
  | [] => rfl
  | [a] => exact absurd rfl h1
  | [a, b] => cases a <;> cases b <;> rfl
  | [a, b, c] =>
      cases a <;> cases b <;> cases c <;> first
        | rfl
        | simp [isShape3] at h3
  | a :: b :: c :: d :: t => cases a <;> cases b <;> cases c <;> cases d <;> rfl

/-- Claim C3: the error adapter never raises on an argument combination
matching none of the three recognized shapes; it falls back to the
single-value shape, dispatching the whole argument tuple as one opaque
`errorMsg` value. -/
theorem error_unrecognized_shape_falls_back (beh : Nat → MessageValue → Bool)
    (r : Receiver) (args : List Value) (h3 : isShape3 args = false)
    (h1 : args.length ≠ 1) :
    Receiver.error beh r args =
      Receiver.dispatch beh r "error" [("errorMsg", Value.tuple args)] ∧
    ∃ out, Receiver.error beh r args = Except.ok out := by
  have hn := errorNormalize_fallback args h3 h1
  constructor
  · rw [Receiver.error, hn]
  · exact dispatch_ok beh r "error" (errorNormalize args)

/-- Witness for C3 at the two-argument combination `(1, 2)`. -/
theorem error_unrecognized_shape_falls_back_witness :
    isShape3 [Value.int 1, Value.int 2] = false ∧
    ([Value.int 1, Value.int 2] : List Value).length ≠ 1 ∧
    (Receiver.error behTrue rxErr [Value.int 1, Value.int 2] =
      Receiver.dispatch behTrue rxErr "error"
        [("errorMsg", Value.tuple [Value.int 1, Value.int 2])] ∧
     ∃ out, Receiver.error behTrue rxErr [Value.int 1, Value.int 2] = Except.ok out) :=
  ⟨rfl, by decide,
   error_unrecognized_shape_falls_back behTrue rxErr [Value.int 1, Value.int 2]
     rfl (by decide)⟩

/-- Claim C10: the generated per-type entry point builds its mapping by
zipping the field-name list with the positional arguments and forwards it to
`dispatch`; surplus field names are silently absent from the mapping,
surplus arguments are silently dropped, and the entry point raises
nothing. -/
theorem messageMethod_zip_truncation (name : String) (argnames : List String)
    (beh : Nat → MessageValue → Bool) (self : Receiver) (args : List Value)
    (hnd : argnames.Nodup) :
    messageMethod name argnames beh self args =
      Receiver.dispatch beh self name (argnames.zip args) ∧
    (argnames.zip args).map Prod.fst = argnames.take args.length ∧
    (argnames.zip args).map Prod.snd = args.take argnames.length ∧
    (∀ i (h : i < argnames.length), args.length ≤ i →
      assocFind (argnames.zip args) argnames[i] = none) ∧
    ∃ out, messageMethod name argnames beh self args = Except.ok out := by
  have hkeys : ((argnames.zip args).map Prod.fst).Nodup := by
    rw [zip_map_fst]
    exact List.Nodup.sublist (List.take_sublist args.length argnames) hnd
  have hpy : pyDict (argnames.zip args) = argnames.zip args := pyDict_eq_self _ hkeys
  refine ⟨?_, zip_map_fst argnames args, zip_map_snd argnames args, ?_, ?_⟩
  · rw [messageMethod, hpy]
  · intro i h hge
    exact assocFind_zip_none argnames args i h hnd hge
  · exact dispatch_ok beh self name (pyDict (argnames.zip args))

/-- Witness for C10: two field names, one argument — the trailing field name
is absent from the mapping and the call returns normally. -/
theorem messageMethod_zip_truncation_witness :
    (["reqId", "rate"] : List String).Nodup ∧
    (messageMethod "updateNewsBulletin" ["reqId", "rate"] behTrue rxErr
        [Value.int 1] =
      Receiver.dispatch behTrue rxErr "updateNewsBulletin"
        ((["reqId", "rate"] : List String).zip [Value.int 1]) ∧
     (((["reqId", "rate"] : List String).zip [Value.int 1])).map Prod.fst =
       (["reqId", "rate"] : List String).take 1 ∧
     (((["reqId", "rate"] : List String).zip [Value.int 1])).map Prod.snd =
       ([Value.int 1] : List Value).take 2 ∧
     (∀ i (h : i < (["reqId", "rate"] : List String).length),
        ([Value.int 1] : List Value).length ≤ i →
        assocFind ((["reqId", "rate"] : List String).zip [Value.int 1])
          (["reqId", "rate"] : List String)[i] = none) ∧
     ∃ out, messageMethod "updateNewsBulletin" ["reqId", "rate"] behTrue rxErr
        [Value.int 1] = Except.ok out) :=
  ⟨by decide,
   messageMethod_zip_truncation "updateNewsBulletin" ["reqId", "rate"] behTrue rxErr
     [Value.int 1] (by decide)⟩

/-- Claim C1 is refuted by the code (code bug): with listeners 0 and 1
registered for the type in that order and listener 0 raising, the in-place
removal of listener 0 during iteration makes the loop skip listener 1
entirely — the invocation trace is exactly `[0]`, although listener 1 was
registered at dispatch start and does not raise.  The spec's own §9 notes
that the source's iteration-and-removal is not snapshot-safe. -/
theorem dispatch_fault_skips_next_registered_listener :
    (Receiver.dispatch behFaulty0 rxTwo "accountSummary" []).map
        (fun out => out.2.map Prod.fst) = Except.ok [0] ∧
    (1 : Nat) ∈ [0, 1] ∧
    behFaulty0 1 (mkMessage { name := "AccountSummary" } []) = true := by
  refine ⟨?_, by decide, rfl⟩
  have hfan : fanout behFaulty0 (mkMessage { name := "AccountSummary" } []) [0, 1] 0 =
      ([1], [0]) := by
    rw [fanout]
    simp only [invokeListener, behFaulty0, removeListener]
    norm_num
    rw [fanout]
    simp
  rw [dispatch_found behFaulty0 rxTwo "accountSummary" []
    { name := "AccountSummary" } [0, 1] rfl rfl, hfan]
  rfl

end IbPy
